import Mathlib

/-!
Shallow embedding of the anime-tanjoubi birthday bot core, translated from
the repository source (src/jikan.js, src/state.js, src/twitter.js,
src/image-validation.js, src/image-resolver.js, index.js), together with
theorems settling the specification claims about it.

JavaScript strings are modelled as Lean `String`s and all transforms are
written over `List Char` (`String.data`), so every definition evaluates by
kernel reduction.  JS `null`/`undefined` is `Option.none`; `||`, `??` and
truthiness are modelled explicitly where the source uses them.
-/

/-- JS `\s` (ASCII whitespace forms that occur in the data handled here). -/
def jsIsWs (c : Char) : Bool :=
  c = ' ' || c = '\t' || c = '\n' || c = '\r' || c = '\x0b' || c = '\x0c'

/-- JS `toLowerCase` restricted to ASCII letters (all inputs reaching the
  name pipeline in the claims are ASCII; Unicode lowering is the identity
  on them). -/
def asciiLower (c : Char) : Char :=
  if 'A' ≤ c && c ≤ 'Z' then Char.ofNat (c.toNat + 32) else c

/-- Combining diacritical marks U+0300–U+036F, the range removed by
  `.replace(/[̀-ͯ]/g, '')` after NFD. -/
def isCombiningMark (c : Char) : Bool :=
  0x300 ≤ c.toNat && c.toNat ≤ 0x36F

/-- JS `\w`: `[A-Za-z0-9_]`. -/
def isWordChar (c : Char) : Bool :=
  ('a' ≤ c && c ≤ 'z') || ('A' ≤ c && c ≤ 'Z') || ('0' ≤ c && c ≤ '9') || c = '_'

/-- Latin-1 supplement / extended range `À-ɏ` kept by
  image-validation.js `getSearchWords`. -/
def isLatinExt (c : Char) : Bool :=
  0xC0 ≤ c.toNat && c.toNat ≤ 0x24F

/-- `.replace(/\s+/g, ' ')`: collapse every whitespace run to one space. -/
def collapseWsAux : List Char → Bool → List Char
  | [], _ => []
  | c :: cs, prevWs =>
    if jsIsWs c then
      if prevWs then collapseWsAux cs true else ' ' :: collapseWsAux cs true
    else c :: collapseWsAux cs false

def collapseWs (l : List Char) : List Char := collapseWsAux l false

/-- JS `String.prototype.trim` (strip leading/trailing whitespace). -/
def jsTrimChars (l : List Char) : List Char :=
  ((l.dropWhile jsIsWs).reverse.dropWhile jsIsWs).reverse

/-- `.replace(/(.)\1+/g, '$1')`: collapse runs of an identical character. -/
def dedupAdj : List Char → List Char
  | [] => []
  | [c] => [c]
  | a :: b :: rest => if a = b then dedupAdj (b :: rest) else a :: dedupAdj (b :: rest)

/-- JS `String.prototype.includes` on char lists. -/
def isInfixChars (sub s : List Char) : Bool :=
  match s with
  | [] => sub.isEmpty
  | _ :: rest => sub.isPrefixOf s || isInfixChars sub rest

/-- JS `s.includes(sub)`. -/
def sIncludes (s sub : String) : Bool := isInfixChars sub.data s.data

/-- JS `toLowerCase` on a whole string (ASCII). -/
def jsLowerStr (s : String) : String := ⟨s.data.map asciiLower⟩

/-- JS `String.prototype.split(',')`. -/
def splitOnComma : List Char → List (List Char)
  | [] => [[]]
  | c :: rest =>
    let r := splitOnComma rest
    if c = ',' then [] :: r
    else
      match r with
      | h :: t => (c :: h) :: t
      | [] => [[c]]

/-- `Array.prototype.join(' ')` on char lists. -/
def joinSpaceLists : List (List Char) → List Char
  | [] => []
  | [x] => x
  | x :: xs => x ++ ' ' :: joinSpaceLists xs

/-- `Array.prototype.join(' ')` on strings. -/
def joinSpaceStr (l : List String) : String := ⟨joinSpaceLists (l.map String.data)⟩

/-- `split(/\s+/)` with empty fragments dropped (equivalently
  `.split(/\s+/).filter(Boolean)`): the maximal non-whitespace words. -/
def wordsWsAux : List Char → List Char → List (List Char)
  | [], acc => if acc.isEmpty then [] else [acc.reverse]
  | c :: rest, acc =>
    if jsIsWs c then
      if acc.isEmpty then wordsWsAux rest [] else acc.reverse :: wordsWsAux rest []
    else wordsWsAux rest (c :: acc)

/-- Whitespace-separated words of a string. -/
def wsParts (s : String) : List String := (wordsWsAux s.data []).map (⟨·⟩)

/-- JS `a || b` on `Option String` operands (empty string is falsy). -/
def jsOrOpt : Option String → Option String → Option String
  | some s, b => if s = "" then b else some s
  | none, b => b

/-- JS `x || null` for an optional string (empty string collapses to null). -/
def jsTruthyOpt : Option String → Option String
  | some s => if s = "" then none else some s
  | none => none

/-- JS string truthiness of an optional string. -/
def jsTruthyStr : Option String → Bool
  | some s => s ≠ ""
  | none => false

/-- JS `a || b` on strings ('' falsy). -/
def jsOrStr (a b : String) : String := if a = "" then b else a

/-- JS `a || b` on numbers (0 falsy). -/
def jsOrNat (a b : Nat) : Nat := if a = 0 then b else a

/-! ## src/jikan.js — name normalization and catalog search -/

/-- jikan.js `normalizeName`: lower-case, NFD + strip combining marks
  (NFD is the identity on the ASCII/precomposed-free inputs considered
  here), collapse whitespace runs, replace commas by spaces, trim, then
  collapse runs of identical characters. -/
def normalizeName (s : String) : String :=
  ⟨dedupAdj (jsTrimChars
    (((collapseWs ((s.data.map asciiLower).filter (fun c => !isCombiningMark c))).map
      (fun c => if c = ',' then ' ' else c))))⟩

/-- jikan.js `malNameToFirstLast`: reorder MAL's "Last, First" to
  "First Last"; names without a comma pass through unchanged. -/
def malNameToFirstLast (name : String) : String :=
  if name.data.contains ',' then
    match (splitOnComma name.data).map jsTrimChars with
    | [] => name
    | last :: firstParts =>
      let first := jsTrimChars (joinSpaceLists firstParts)
      if first.isEmpty then ⟨last⟩ else ⟨first ++ ' ' :: last⟩
  else name

/-- jikan.js query cleanup `name.replace(/[^\w\s]/g, ' ').trim()`. -/
def cleanQuery (s : String) : String :=
  ⟨jsTrimChars (s.data.map (fun c => if isWordChar c || jsIsWs c then c else ' '))⟩

/-- jikan.js line 169 anime keywords: lower-case, delete non-word
  non-space characters, split on whitespace, keep words longer than 2 not
  in the particle stop list. -/
def kwStop (an : String) : List String :=
  ((wordsWsAux ((an.data.map asciiLower).filter (fun c => isWordChar c || jsIsWs c)) []).map
    (fun w => (⟨w⟩ : String))).filter
    (fun w => w.length > 2 && !(["the", "no", "ni", "wa", "ga", "de", "to"].contains w))

/-- jikan.js lines 223 and 232 anime keywords: as `kwStop` but with no
  stop list (only the length filter). -/
def kwLen (an : String) : List String :=
  ((wordsWsAux ((an.data.map asciiLower).filter (fun c => isWordChar c || jsIsWs c)) []).map
    (fun w => (⟨w⟩ : String))).filter (fun w => w.length > 2)

/-- The exact-or-partial name test used both by the roster scan and the
  global-search scoring: exact means equal normalized forms; partial means
  the query has at least two words and each occurs as a substring of the
  normalized candidate. -/
def nameMatchTier (searchNorm charNorm : String) : Nat :=
  if charNorm = searchNorm then 2
  else
    let searchParts := wsParts searchNorm
    if searchParts.length ≥ 2 && searchParts.all (fun p => sIncludes charNorm p) then 1
    else 0

/-- Processed result of jikan.js `searchAnime` (first hit's id, title and
  combined genres+themes). -/
structure AnimeHit where
  mal_id : Nat
  title : String
  genres : List String
deriving DecidableEq

/-- One roster member from `/anime/{id}/characters` (`charData.character`). -/
structure RosterChar where
  mal_id : Nat
  name : String
deriving DecidableEq

/-- One result of the global `/characters?q=` search, with the fields the
  source reads: `anime` holds the titles `a.anime?.title` (possibly
  missing), and `image`/`imageLarge` the already-coalesced
  `images.jpg… || images.webp…` chains used by the fallback return. -/
structure SearchChar where
  mal_id : Nat
  name : String
  animeTitles : List (Option String)
  image : Option String
  imageLarge : Option String
  name_kanji : Option String
  url : String
  favorites : Nat
deriving DecidableEq

/-- One entry of the `anime` array produced by `getCharacterById`
  (`{mal_id, title, role}` mapped from `a.anime?…`, hence optional). -/
structure AnimeEntry where
  mal_id : Option Nat
  title : Option String
  role : Option String
deriving DecidableEq

/-- The full character record returned by jikan.js `getCharacterById`. -/
structure FullChar where
  mal_id : Nat
  name : String
  name_kanji : Option String
  nicknames : List String
  about : Option String
  image : Option String
  image_large : Option String
  url : String
  favorites : Nat
  genres : List String
  anime : List AnimeEntry
deriving DecidableEq

/-- The external Jikan catalog, abstracted as response functions: what
  `searchAnime`, `getAnimeCharacters`, the `/characters?q=` search and the
  `/characters/{id}/full` endpoint return for each request.  `searchCharacter`
  below is the algorithm under verification; these wrappers over the raw
  HTTP responses are its oracle. -/
structure JikanOracle where
  searchAnime : String → Option AnimeHit
  getAnimeCharacters : Nat → List RosterChar
  charactersSearch : String → List SearchChar
  characterFull : Nat → Option FullChar

/-- jikan.js `getCharacterById(malId, genres)`: the catalog's full record
  with the caller-supplied genres attached. -/
def getCharacterById (o : JikanOracle) (malId : Nat) (genres : List String) : Option FullChar :=
  (o.characterFull malId).map (fun fc => { fc with genres := genres })

/-- Strategy 1 roster scan: first roster member whose (comma-reordered,
  normalized) name matches the normalized query exactly or partially. -/
def rosterMatch (searchNorm : String) (characters : List RosterChar) : Option RosterChar :=
  characters.find? (fun charData =>
    let malFirstLast := malNameToFirstLast ⟨jsTrimChars charData.name.data⟩
    let charNorm := normalizeName malFirstLast
    nameMatchTier searchNorm charNorm ≥ 1)

/-- A strategy-1 roster hit carried into strategy 2 when its full-record
  fetch fails (the JS `bestMatch` variable keeps the roster object; only
  its `mal_id`/`name` are read on the paths modelled here). -/
def rosterToSearch (bm : RosterChar) : SearchChar :=
  { mal_id := bm.mal_id, name := bm.name, animeTitles := [], image := none,
    imageLarge := none, name_kanji := none, url := "", favorites := 0 }

/-- Strategy-2 scoring loop (jikan.js lines 166–192): best name match,
  with a +1 bonus when the candidate's own anime titles contain one of the
  series-guess keywords; only candidates with at least a partial name
  match are eligible, and strictly higher scores win (first wins ties). -/
def scoreSearchResults (searchNorm : String) (animeKeywords : List String)
    (data : List SearchChar) : Option SearchChar :=
  (data.foldl (fun (acc : Int × Option SearchChar) ch =>
    let charNorm := normalizeName (malNameToFirstLast ch.name)
    let nameMatch : Int := nameMatchTier searchNorm charNorm
    let hasAnime : Int :=
      if animeKeywords.length > 0 && ch.animeTitles.length > 0 then
        let titles := joinSpaceStr (ch.animeTitles.map (fun t => jsLowerStr (t.getD "")))
        if animeKeywords.any (fun kw => sIncludes titles kw) then 1 else 0
      else 0
    let score := nameMatch * 10 + hasAnime
    if nameMatch ≥ 1 ∧ score > acc.1 then (score, some ch) else acc)
    ((-1 : Int), none)).2

/-- jikan.js strategy 2 (global `/characters?q=` search, combined-query
  retry, unverified first-result fallback, anime-list reorder and the
  content-safety `about := null` rule), entered with the genres gathered
  by strategy 1 and — when strategy 1 matched a roster member whose full
  record could not be fetched — that still-set best match. -/
def searchCharacterGlobal (o : JikanOracle) (characterName : String)
    (animeName : Option String) (animeGenres : List String)
    (bestMatch0 : Option SearchChar) : Option FullChar :=
  match o.charactersSearch (cleanQuery characterName) with
  | [] => none
  | d0 :: drest =>
    let data := d0 :: drest
    let bestMatch1 : Option SearchChar :=
      match bestMatch0 with
      | some bm => some bm
      | none =>
        let searchNorm := normalizeName characterName
        let animeKeywords := match animeName with
          | some an => kwStop an
          | none => []
        scoreSearchResults searchNorm animeKeywords data
    let bestMatch2 : Option SearchChar :=
      match bestMatch1, animeName with
      | none, some an =>
        match o.charactersSearch (cleanQuery (characterName ++ " " ++ an)) with
        | [] => none
        | e0 :: _ => some e0
      | b, _ => b
    let verdict : SearchChar × Bool :=
      match bestMatch2 with
      | some bm => (bm, true)
      | none => (d0, false)
    let bestMatch3 := verdict.1
    let isVerifiedMatch := verdict.2
    match getCharacterById o bestMatch3.mal_id animeGenres with
    | some fc0 =>
      let fc1 :=
        match animeName with
        | some an =>
          if fc0.anime.length > 1 then
            let kw := kwLen an
            match fc0.anime.findIdx? (fun a =>
                kw.any (fun k => sIncludes (jsLowerStr (a.title.getD "")) k)) with
            | some idx =>
              if idx > 0 then
                match fc0.anime.get? idx with
                | some hit => { fc0 with anime := hit :: fc0.anime.eraseIdx idx }
                | none => fc0
              else fc0
            | none => fc0
          else fc0
        | none => fc0
      let fc2 :=
        if !isVerifiedMatch then
          match animeName with
          | some an =>
            if fc1.anime.length > 0 then
              let animeKeywords := kwLen an
              let animeMatches := fc1.anime.any (fun a =>
                animeKeywords.any (fun k => sIncludes (jsLowerStr (a.title.getD "")) k))
              if !animeMatches then { fc1 with about := none } else fc1
            else fc1
          | none => fc1
        else fc1
      some fc2
    | none =>
      some { mal_id := bestMatch3.mal_id, name := bestMatch3.name,
             name_kanji := bestMatch3.name_kanji, nicknames := [], about := none,
             image := bestMatch3.image, image_large := bestMatch3.imageLarge,
             url := bestMatch3.url, favorites := bestMatch3.favorites,
             genres := animeGenres, anime := [] }

/-- jikan.js `searchCharacter(characterName, animeName)`: strategy 1
  (series-scoped roster scan, authoritative, returns the full record on a
  roster hit) falling back to strategy 2 (global search). -/
def searchCharacter (o : JikanOracle) (characterName : String)
    (animeName : Option String) : Option FullChar :=
  let s1 : Option RosterChar × List String :=
    match animeName with
    | some an =>
      match o.searchAnime an with
      | some anime =>
        let characters := o.getAnimeCharacters anime.mal_id
        if characters.length > 0 then
          (rosterMatch (normalizeName characterName) characters, anime.genres)
        else (none, anime.genres)
      | none => (none, [])
    | none => (none, [])
  match s1.1 with
  | some bm =>
    match getCharacterById o bm.mal_id s1.2 with
    | some fullChar => some fullChar
    | none => searchCharacterGlobal o characterName animeName s1.2 (some (rosterToSearch bm))
  | none => searchCharacterGlobal o characterName animeName s1.2 none

/-! ## src/state.js — daily post lifecycle state -/

/-- One per-slot record of the persisted daily state (`posts[index]`).
  `error`/`lastAttempt` are the extra fields `markPostAsFailed` writes;
  they are absent (`none`) until then. -/
structure StatePost where
  index : Nat
  acdbId : Option String
  character : String
  series : String
  scheduledTime : String
  status : String
  postedAt : Option String
  tweetId : Option String
  tweetUrl : Option String
  errMsg : Option String := none
  lastAttempt : Option String := none
deriving DecidableEq

/-- The persisted `posts-YYYY-MM-DD.json` document. -/
structure DailyState where
  date : String
  preparedAt : String
  posts : List StatePost
deriving DecidableEq

/-- A `{hour, minute}` entry of the POST_TIMES table. -/
structure TimeObj where
  hour : Nat
  minute : Nat
deriving DecidableEq

/-- `padStart(2, '0')`. -/
def pad2 (n : Nat) : String := if n < 10 then "0" ++ toString n else toString n

/-- state.js `formatTime`: `HH:MM`, or `'N/A'` for a missing slot time. -/
def formatTime : Option TimeObj → String
  | none => "N/A"
  | some t => pad2 t.hour ++ ":" ++ pad2 t.minute

/-- The character block of one prepared post
  (index.js `preparePostsWithImages` output). -/
structure PreparedCharacter where
  name : String
  name_kanji : Option String := none
  series : String
  favorites : Nat := 0
  birthday : Option String := none
  about : Option String := none
  genres : List String := []
deriving DecidableEq

/-- One prepared post handed to `initializeTodaysState`. -/
structure PreparedPost where
  acdbId : Option String
  character : PreparedCharacter
  imagePath : Option String
deriving DecidableEq

/-- `Array.prototype.map((x, index) => …)` starting the index at `n`. -/
def mapIdxFrom (f : Nat → α → β) : Nat → List α → List β
  | _, [] => []
  | n, a :: as => f n a :: mapIdxFrom f (n + 1) as

/-- `posts.map((post, index) => …)`. -/
def mapWithIndex (f : Nat → α → β) (l : List α) : List β := mapIdxFrom f 0 l

/-- state.js `mergeState`: rebuild the posts array from the fresh posts;
  a slot keeps its existing record only when an existing record with the
  same index *and* the same character name is already `posted`; otherwise
  the slot is overwritten with fresh data, carrying over the matching
  existing record's status (`|| 'pending'`), timestamps and tweet ids. -/
def freshSlot (postTimes : List TimeObj) (index : Nat) (post : PreparedPost) : StatePost :=
  { index := index, acdbId := post.acdbId,
    character := post.character.name, series := post.character.series,
    scheduledTime := formatTime (postTimes.get? index),
    status := "pending", postedAt := none, tweetId := none, tweetUrl := none }

/-- The per-slot body of the merge map: look up an existing record with
  the same index *and* character name; a posted one is returned
  untouched, any other match is overwritten with fresh data carrying over
  its status (`|| 'pending'`), timestamps and tweet ids; no match yields
  a fresh pending record. -/
def mergeSlot (existingState : DailyState) (postTimes : List TimeObj)
    (index : Nat) (post : PreparedPost) : StatePost :=
  match existingState.posts.find?
      (fun p => p.index = index ∧ p.character = post.character.name) with
  | some ep =>
    if ep.status = "posted" then ep
    else
      { index := index, acdbId := post.acdbId <|> ep.acdbId,
        character := post.character.name, series := post.character.series,
        scheduledTime := formatTime (postTimes.get? index),
        status := jsOrStr ep.status "pending",
        postedAt := jsTruthyOpt ep.postedAt,
        tweetId := jsTruthyOpt ep.tweetId,
        tweetUrl := jsTruthyOpt ep.tweetUrl }
  | none => freshSlot postTimes index post

def mergeState (existingState : DailyState) (posts : List PreparedPost)
    (postTimes : List TimeObj) : DailyState :=
  { existingState with
    posts := mapWithIndex (mergeSlot existingState postTimes) posts }

/-- state.js `initializeTodaysState`: create a fresh state when none is
  persisted for today, otherwise merge into the existing one. -/
def initializeTodaysState (existing : Option DailyState) (posts : List PreparedPost)
    (postTimes : List TimeObj) (todayDate nowIso : String) : DailyState :=
  match existing with
  | some existingState => mergeState existingState posts postTimes
  | none =>
    { date := todayDate, preparedAt := nowIso,
      posts := mapWithIndex (freshSlot postTimes) posts }

/-- Outcome of reading the persisted state file: parsed content, `ENOENT`
  (no file yet), or any other read/parse failure. -/
inductive StoreRead where
  | ok (st : DailyState)
  | enoent
  | readErr
deriving DecidableEq

/-- state.js `loadState`: `ENOENT` yields `null`; any other error is
  logged and *also* yields `null` (it is not rethrown). -/
def loadState : StoreRead → Option DailyState
  | .ok st => some st
  | .enoent => none
  | .readErr => none

/-- state.js `isPostAlreadySent`: false when there is no state or no post
  at that index, else whether that post's status is `'posted'`. -/
def isPostAlreadySent (r : StoreRead) (index : Nat) : Bool :=
  match loadState r with
  | none => false
  | some state =>
    match state.posts.get? index with
    | none => false
    | some p => p.status = "posted"

/-- The in-place update `state.posts[index] = {status posted, postedAt,
  tweetId, tweetUrl}` (no-op when the index is out of range, as in the
  source's `if (state.posts[index])` guard). -/
def setPostSent : List StatePost → Nat → String → String → String → List StatePost
  | [], _, _, _, _ => []
  | p :: rest, 0, tweetId, tweetUrl, nowIso =>
    { p with status := "posted", postedAt := some nowIso,
             tweetId := some tweetId, tweetUrl := some tweetUrl } :: rest
  | p :: rest, Nat.succ n, tweetId, tweetUrl, nowIso =>
    p :: setPostSent rest n tweetId tweetUrl nowIso

/-- state.js `markPostAsSent` acting on the loaded state; returns the
  persisted value afterwards (`none` when there was no state to update). -/
def markPostAsSent (state : Option DailyState) (index : Nat)
    (tweetId tweetUrl nowIso : String) : Option DailyState :=
  match state with
  | none => none
  | some st => some { st with posts := setPostSent st.posts index tweetId tweetUrl nowIso }

/-- The in-place update done by `markPostAsFailed`. -/
def setPostFailed : List StatePost → Nat → String → String → List StatePost
  | [], _, _, _ => []
  | p :: rest, 0, msg, nowIso =>
    { p with status := "error", errMsg := some msg, lastAttempt := some nowIso } :: rest
  | p :: rest, Nat.succ n, msg, nowIso => p :: setPostFailed rest n msg nowIso

/-- state.js `markPostAsFailed` acting on the loaded state. -/
def markPostAsFailed (state : Option DailyState) (index : Nat)
    (msg nowIso : String) : Option DailyState :=
  match state with
  | none => none
  | some st => some { st with posts := setPostFailed st.posts index msg nowIso }

/-- state.js `canRecoverFromState`: a state exists, has posts, and every
  post has a truthy `acdbId`. -/
def canRecoverFromState (state : Option DailyState) : Bool :=
  match state with
  | none => false
  | some st =>
    if st.posts.isEmpty then false
    else st.posts.all (fun p => jsTruthyStr p.acdbId)

/-! ## src/twitter.js — publishing with the duplicate-protection guard -/

/-- The two network calls `postBirthdayTweet` can make to the posting
  service: the v1 media upload and the v2 tweet. -/
inductive SvcCall where
  | uploadMedia
  | postTweet
deriving DecidableEq

/-- Behaviour of the posting service for one attempt: whether the media
  upload succeeds, and whether the tweet call succeeds (with its id) or
  fails (with its error message). -/
structure TweetOutcome where
  uploadOk : Bool
  tweetOk : Bool
  id : String
  tweetErr : String
deriving DecidableEq

/-- The result object `postBirthdayTweet` resolves with. -/
structure PostResult where
  success : Bool
  skipped : Bool := false
  reason : Option String := none
  id : Option String := none
  url : Option String := none
  errMsg : Option String := none
deriving DecidableEq

/-- Observable effect of one `postBirthdayTweet` run: its result object,
  the posting-service calls it made, and the persisted state afterwards. -/
structure PBOut where
  result : PostResult
  calls : List SvcCall
  persisted : Option DailyState
deriving DecidableEq

/-- twitter.js `postTweet` URL construction. -/
def tweetUrlOf (id : String) : String := "https://twitter.com/i/status/" ++ id

/-- twitter.js `postBirthdayTweet`: when a post index is supplied, consult
  `isPostAlreadySent` first and skip (no service call at all) if the slot
  is already posted; otherwise upload the media and post the tweet,
  recording success via `markPostAsSent` and failure via
  `markPostAsFailed` (an upload throw is caught and also marked failed). -/
def postBirthdayTweet (store : StoreRead) (postIndex : Option Nat)
    (outcome : TweetOutcome) (nowIso : String) : PBOut :=
  let alreadySent := match postIndex with
    | some i => isPostAlreadySent store i
    | none => false
  if alreadySent then
    { result := { success := true, skipped := true, reason := some "already_posted" },
      calls := [], persisted := loadState store }
  else if !outcome.uploadOk then
    { result := { success := false, errMsg := some "upload error" },
      calls := [SvcCall.uploadMedia],
      persisted := match postIndex with
        | some i => markPostAsFailed (loadState store) i "upload error" nowIso
        | none => loadState store }
  else if outcome.tweetOk then
    { result := { success := true, id := some outcome.id, url := some (tweetUrlOf outcome.id) },
      calls := [SvcCall.uploadMedia, SvcCall.postTweet],
      persisted := match postIndex with
        | some i => markPostAsSent (loadState store) i outcome.id (tweetUrlOf outcome.id) nowIso
        | none => loadState store }
  else
    { result := { success := false, errMsg := some outcome.tweetErr },
      calls := [SvcCall.uploadMedia, SvcCall.postTweet],
      persisted := match postIndex with
        | some i => markPostAsFailed (loadState store) i outcome.tweetErr nowIso
        | none => loadState store }

/-! ## src/image-validation.js -/

def MIN_FILE_SIZE_BYTES : Nat := 25000

def MIN_WIDTH : Nat := 280

def MIN_HEIGHT : Nat := 280

/-- `extOk`: the `(jpg|png|gif)` alternative of the uploads pattern. -/
def uploadsExtOk (l : List Char) : Bool :=
  ["jpg", "png", "gif"].any (fun e => e.data.isPrefixOf l)

/-- After `/uploads/1-` and its first digit: more digits, then `.`, then
  one of the extensions. -/
def uploadsAfterDigits : List Char → Bool
  | [] => false
  | c :: rest =>
    if c.isDigit then uploadsAfterDigits rest
    else c = '.' && uploadsExtOk rest

/-- Does the list start with `/uploads/1-\d+\.(jpg|png|gif)`? -/
def uploadsMatchHere (l : List Char) : Bool :=
  "/uploads/1-".data.isPrefixOf l &&
    (match l.drop 11 with
     | c :: rest => c.isDigit && uploadsAfterDigits rest
     | [] => false)

/-- Does the pattern match anywhere in the list? -/
def anyTailMatch (f : List Char → Bool) : List Char → Bool
  | [] => f []
  | c :: rest => f (c :: rest) || anyTailMatch f rest

/-- image-validation.js `isUrlLikelyPlaceholder`: empty/missing URLs,
  URLs containing `icon`/`default`/`placeholder` (case-insensitive), the
  known forum placeholder, or the `uploads/1-…` default-avatar pattern
  (matched case-insensitively, as the `/i` flag does). -/
def isUrlLikelyPlaceholder (url : Option String) : Bool :=
  match url with
  | none => true
  | some u =>
    if u = "" then true
    else
      let lower := jsLowerStr u
      if sIncludes lower "icon" || sIncludes lower "default" ||
          sIncludes lower "placeholder" then true
      else sIncludes u "forum/67712-" || anyTailMatch uploadsMatchHere lower.data

/-- image-validation.js `getSearchWords`: lower-case, keep word
  characters, whitespace and the Latin accent range, split on whitespace,
  keep words of length ≥ 2 that are not all digits. -/
def getSearchWords (text : String) : List String :=
  ((wordsWsAux ((text.data.map asciiLower).map
      (fun c => if isWordChar c || jsIsWs c || isLatinExt c then c else ' ')) []).map
    (fun w => (⟨w⟩ : String))).filter
    (fun w => w.length ≥ 2 && !(w.data.all Char.isDigit))

/-- Configuration/behaviour of the optional Google Vision check: whether
  an API key is configured, and the label/entity descriptions the API
  returns (`none` models an API error or missing response, on which the
  source does not block). -/
structure VisionEnv where
  configured : Bool
  response : Option (List String)
deriving DecidableEq

/-- image-validation.js `validateWithVisionApi`: pass-through when no key
  is configured or the API errs; otherwise require ≥ 1 character word AND
  (≥ 1 series word OR ≥ 2 character words) among the detected texts. -/
def validateWithVisionApi (env : VisionEnv) (characterName series : String) :
    Bool × Option String :=
  if !env.configured then (true, none)
  else
    match env.response with
    | none => (true, none)
    | some texts =>
      let combinedText := jsLowerStr (joinSpaceStr texts)
      let charWords := getSearchWords characterName
      let seriesWords := getSearchWords series
      let charMatches := charWords.filter (fun w => sIncludes combinedText w)
      let seriesMatches := seriesWords.filter (fun w => sIncludes combinedText w)
      let hasCharacter := charMatches.length ≥ 1
      let hasSeries := seriesMatches.length ≥ 1
      let hasStrongCharacter := charMatches.length ≥ 2
      if hasCharacter && (hasSeries || hasStrongCharacter) then (true, none)
      else
        (false, some ("Vision API: no se detectó personaje/serie en la imagen (buscado: \"" ++
          characterName ++ "\", \"" ++ series ++ "\")"))

/-- What the file system reports for the downloaded candidate:
  `statResult` is `fs.stat` (`Except.error msg` when it throws, else
  whether it is a regular file and its byte size), and `dims` is the
  decoded pixel size (`Except.error ()` when `image-size` throws). -/
structure ImageFileInfo where
  statResult : Except String (Bool × Nat)
  dims : Except Unit (Nat × Nat)

/-- image-validation.js `validateImageFile`: hard gates in order — file
  path present, `stat` succeeds and is a file, size ≥ 25 000 bytes,
  readable dimensions, non-zero dimensions, width and height ≥ 280 — then
  the optional Vision soft gate. -/
def validateImageFile (filePath : Option String) (info : ImageFileInfo)
    (vision : VisionEnv) (characterName series : String) : Bool × Option String :=
  match filePath with
  | none => (false, some "No file path")
  | some fp =>
    if fp = "" then (false, some "No file path")
    else
      match info.statResult with
      | .error msg => (false, some msg)
      | .ok (isFile, size) =>
        if !isFile then (false, some "Not a file")
        else if size < MIN_FILE_SIZE_BYTES then
          (false, some ("Imagen muy pequeña (" ++ toString size ++ " bytes, mínimo " ++
            toString MIN_FILE_SIZE_BYTES ++ ")"))
        else
          match info.dims with
          | .error _ => (false, some "No se pudo leer dimensiones de la imagen")
          | .ok (w, h) =>
            if w = 0 || h = 0 then (false, some "Dimensiones inválidas")
            else if w < MIN_WIDTH || h < MIN_HEIGHT then
              (false, some ("Imagen muy pequeña (" ++ toString w ++ "x" ++ toString h ++
                ", mínimo " ++ toString MIN_WIDTH ++ "x" ++ toString MIN_HEIGHT ++ ")"))
            else
              match validateWithVisionApi vision characterName series with
              | (false, r) => (false, r)
              | (true, _) => (true, none)

/-! ## src/image-resolver.js and the index.js preparation loop -/

/-- The raw character flowing into image resolution (`char` in the
  source): scraper name/series plus the optional ACDB image/thumbnail
  URLs. -/
structure ResolverChar where
  name : String
  series : String
  image : Option String
  thumbnail : Option String
deriving DecidableEq

/-- The MAL image fields `resolveImageForCharacter` reads from the
  `searchCharacter` result. -/
structure MalCharImg where
  image : Option String
  image_large : Option String
deriving DecidableEq

/-- The external image world for one resolution run: what each provider
  returns, whether Google search is configured, and — for each candidate
  URL — whether its download succeeds and whether the downloaded file
  passes `validateImageFile`. -/
structure ImgOracle where
  anilistUrl : Option String
  safebooru : List String
  googleConfigured : Bool
  google : List String
  downloadOk : String → Bool
  validOk : String → Bool

/-- Lexicographic char comparison (what `localeCompare` computes on the
  plain ASCII URLs handled here). -/
def lexLeChars : List Char → List Char → Bool
  | [], _ => true
  | _ :: _, [] => false
  | a :: as, b :: bs => if a = b then lexLeChars as bs else decide (a < b)

/-- `a.localeCompare(b) ≤ 0` on ASCII strings. -/
def strLe (a b : String) : Bool := lexLeChars a.data b.data

/-- Stable insertion into a sorted list (equal keys keep their original
  relative order, as JS `Array.prototype.sort` guarantees). -/
def insertByUrl (a : String) : List String → List String
  | [] => [a]
  | b :: rest => if strLe b a then b :: insertByUrl a rest else a :: b :: rest

/-- image-resolver.js `sortByUrl`: stable sort of candidate URLs. -/
def sortByUrl (items : List String) : List String :=
  items.foldl (fun acc u => insertByUrl u acc) []

/-- image-resolver.js `tryDownload`: download the URL, validate the file,
  and yield the file (identified here by its URL) only when both succeed;
  falsy URLs yield nothing. -/
def tryDownload (o : ImgOracle) (url : Option String) : Option String :=
  match url with
  | none => none
  | some u =>
    if u = "" then none
    else if o.downloadOk u && o.validOk u then some u else none

/-- image-resolver.js `resolveImageForCharacter`: fixed provider priority
  1. Anilist, 2. Safebooru (candidates sorted by URL), 3. Google Images
  if configured (sorted by URL), 4. ACDB full image (when `hasAcdb` and
  not a placeholder URL), 5. MAL `image_large || image` (unless the
  string `'undefined'`), 6. ACDB thumbnail.  Returns the downloaded file
  and the provider tag, or nothing. -/
def resolveImageForCharacter (o : ImgOracle) (char : ResolverChar)
    (malChar : Option MalCharImg) (hasAcdb : Bool) : Option (String × String) :=
  match tryDownload o (jsTruthyOpt o.anilistUrl) with
  | some p => some (p, "anilist")
  | none =>
    match (sortByUrl o.safebooru).findSome? (fun u => tryDownload o (some u)) with
    | some p => some (p, "safebooru")
    | none =>
      let r3 := if o.googleConfigured then
          (sortByUrl o.google).findSome? (fun u => tryDownload o (some u))
        else none
      match r3 with
      | some p => some (p, "google")
      | none =>
        let r4 := if hasAcdb ∧ jsTruthyStr char.image ∧ !isUrlLikelyPlaceholder char.image then
            tryDownload o char.image
          else none
        match r4 with
        | some p => some (p, "acdb")
        | none =>
          let malImageUrl : Option String := match malChar with
            | some mc => jsOrOpt mc.image_large mc.image
            | none => none
          let r5 := match malImageUrl with
            | some u => if u ≠ "undefined" then tryDownload o (some u) else none
            | none => none
          match r5 with
          | some p => some (p, "mal")
          | none =>
            let r6 := if hasAcdb ∧ jsTruthyStr char.thumbnail ∧
                !isUrlLikelyPlaceholder char.thumbnail then
                tryDownload o char.thumbnail
              else none
            match r6 with
            | some p => some (p, "acdb_thumb")
            | none => none

/-- The image-selection part of index.js `preparePostsWithImages` (lines
  295–421): the same six priorities, but the Safebooru and Google result
  lists are used in the order the provider returned them — *not* sorted
  by URL — and the ACDB branches do not depend on a `hasAcdb` flag. -/
def prepareImageSelection (o : ImgOracle) (char : ResolverChar)
    (malChar : Option MalCharImg) : Option (String × String) :=
  match tryDownload o (jsTruthyOpt o.anilistUrl) with
  | some p => some (p, "anilist")
  | none =>
    match o.safebooru.findSome? (fun u => tryDownload o (some u)) with
    | some p => some (p, "safebooru")
    | none =>
      let r3 := if o.googleConfigured then
          o.google.findSome? (fun u => tryDownload o (some u))
        else none
      match r3 with
      | some p => some (p, "google")
      | none =>
        let r4 := if jsTruthyStr char.image ∧ !isUrlLikelyPlaceholder char.image then
            tryDownload o char.image
          else none
        match r4 with
        | some p => some (p, "acdb")
        | none =>
          let malImageUrl : Option String := match malChar with
            | some mc => jsOrOpt mc.image_large mc.image
            | none => none
          let r5 := match malImageUrl with
            | some u => if u ≠ "undefined" then tryDownload o (some u) else none
            | none => none
          match r5 with
          | some p => some (p, "mal")
          | none =>
            let r6 := if jsTruthyStr char.thumbnail ∧
                !isUrlLikelyPlaceholder char.thumbnail then
                tryDownload o char.thumbnail
              else none
            match r6 with
            | some p => some (p, "acdb_thumb")
            | none => none

/-- A raw scraped character as index.js receives it. -/
structure RawCharacter where
  id : Option String
  name : String
  series : String
  birthday : Option String := none
  favorites : Nat := 0
  thumbnail : Option String := none
  image : Option String := none
deriving DecidableEq

/-- index.js `preparePostsWithImages` lines 430–442: the prepared post
  pushed for a character once an image was found.  The `series` field is
  `char.series` — the scraper's series guess — regardless of what the
  resolver returned. -/
def mkPreparedPost (char : RawCharacter) (malChar : Option FullChar)
    (imagePath : String) : PreparedPost :=
  { acdbId := jsTruthyOpt char.id,
    character :=
      { name := match malChar with
          | some m => jsOrStr m.name char.name
          | none => char.name,
        name_kanji := match malChar with
          | some m => jsTruthyOpt m.name_kanji
          | none => none,
        series := char.series,
        favorites := match malChar with
          | some m => jsOrNat m.favorites char.favorites
          | none => char.favorites,
        birthday := char.birthday,
        about := match malChar with
          | some m => jsTruthyOpt m.about
          | none => none,
        genres := match malChar with
          | some m => m.genres
          | none => [] },
    imagePath := some imagePath }

/-! ## Invariants and concrete fixtures used by the claim theorems -/

/-- Spec §3 invariant on a daily state: every `posted` record carries a
  posting timestamp and both external tweet identifiers. -/
def postedOk (st : DailyState) : Prop :=
  ∀ p ∈ st.posts, p.status = "posted" →
    p.postedAt ≠ none ∧ p.tweetId ≠ none ∧ p.tweetUrl ≠ none

/-- Well-formedness produced by the code itself: the `index` field of
  each post equals its position in the array. -/
def slotIndexed (st : DailyState) : Prop :=
  ∀ j q, st.posts.get? j = some q → q.index = j

/-- A posted slot-0 record with all external identifiers present. -/
def fixPosted : StatePost :=
  { index := 0, acdbId := some "1001", character := "A", series := "S",
    scheduledTime := "09:00", status := "posted", postedAt := some "2025-06-01T12:05:00Z",
    tweetId := some "9001", tweetUrl := some "https://twitter.com/i/status/9001" }

/-- A pending slot-1 record. -/
def fixPending : StatePost :=
  { index := 1, acdbId := some "1002", character := "B", series := "S",
    scheduledTime := "12:00", status := "pending", postedAt := none,
    tweetId := none, tweetUrl := none }

/-- An errored slot-1 record (same character name as `fixFreshB`). -/
def fixErrored : StatePost :=
  { index := 1, acdbId := some "1002", character := "B", series := "S",
    scheduledTime := "12:00", status := "error", postedAt := none,
    tweetId := none, tweetUrl := none, errMsg := some "network down",
    lastAttempt := some "2025-06-01T15:00:10Z" }

/-- A persisted state with a posted slot 0 and an errored slot 1. -/
def fixState : DailyState :=
  { date := "2025-06-01", preparedAt := "2025-06-01T08:30:00Z",
    posts := [fixPosted, fixErrored] }

/-- A persisted state with a posted slot 0 and a pending slot 1. -/
def fixStatePending : DailyState :=
  { date := "2025-06-01", preparedAt := "2025-06-01T08:30:00Z",
    posts := [fixPosted, fixPending] }

/-- Freshly prepared data whose slot-0 character name (`C`) differs from
  the posted record's (`A`). -/
def fixFreshC : PreparedPost :=
  { acdbId := some "2001", character := { name := "C", series := "S3" },
    imagePath := some "c.jpg" }

/-- Freshly prepared data with the same character name (`B`) as the
  existing errored slot-1 record. -/
def fixFreshB : PreparedPost :=
  { acdbId := some "1002", character := { name := "B", series := "S" },
    imagePath := some "b.jpg" }

/-- The configured slot times used in the fixtures. -/
def fixTimes : List TimeObj := [⟨9, 0⟩, ⟨12, 0⟩]

/-- A state mixing posts with and without a source-character id. -/
def fixMixedIds : DailyState :=
  { date := "2025-06-02", preparedAt := "2025-06-02T08:30:00Z",
    posts := [fixPosted, { fixPending with acdbId := none }] }

/-- C6 fixture: Anilist empty, Safebooru answers `b.jpg` then `a.jpg`,
  Google unconfigured, every candidate downloads and validates. -/
def c6Oracle : ImgOracle :=
  { anilistUrl := none, safebooru := ["b.jpg", "a.jpg"], googleConfigured := false,
    google := [], downloadOk := fun _ => true, validOk := fun _ => true }

/-- C6 fixture: a character with no ACDB image fields. -/
def c6Char : ResolverChar :=
  { name := "X", series := "Y", image := none, thumbnail := none }

/-- C7 fixture: the sole global-search result — the record is listed
  under the bare name `Geto` (so neither the exact nor the two-token
  partial rule can match the query "Suguru Geto"), and its own anime list
  is `["Jujutsu Kaisen"]`. -/
def getoSearchHit : SearchChar :=
  { mal_id := 77777, name := "Geto", animeTitles := [some "Jujutsu Kaisen"],
    image := some "https://cdn.example/geto.jpg", imageLarge := none,
    name_kanji := some "夏油 傑", url := "https://myanimelist.net/character/77777",
    favorites := 9000 }

/-- C7 fixture: the full catalog record behind `getoSearchHit`. -/
def getoFull : FullChar :=
  { mal_id := 77777, name := "Suguru Geto", name_kanji := some "夏油 傑",
    nicknames := [],
    about := some "Suguru Geto is a curse user and a former student of Tokyo Jujutsu High.",
    image := some "https://cdn.example/geto.jpg",
    image_large := some "https://cdn.example/geto_l.jpg",
    url := "https://myanimelist.net/character/77777", favorites := 9000,
    genres := [],
    anime := [{ mal_id := some 40748, title := some "Jujutsu Kaisen", role := some "Main" }] }

/-- C7 fixture: the catalog's responses — the series guess "Bleach" is
  found but its roster holds no name match, the global search returns
  only `getoSearchHit`, the combined query returns nothing. -/
def c7Oracle : JikanOracle :=
  { searchAnime := fun q =>
      if q = "Bleach" then some { mal_id := 269, title := "Bleach", genres := ["Action"] }
      else none,
    getAnimeCharacters := fun aid =>
      if aid = 269 then [{ mal_id := 5, name := "Kurosaki, Ichigo" }] else [],
    charactersSearch := fun q => if q = "Suguru Geto" then [getoSearchHit] else [],
    characterFull := fun cid => if cid = 77777 then some getoFull else none }

/-- C7 fixture: the scraped raw character with the wrong series guess. -/
def c7Raw : RawCharacter :=
  { id := some "123", name := "Suguru Geto", series := "Bleach",
    birthday := some "February 3", favorites := 512 }

/-- The posting-service behaviour used in concrete publish fixtures:
  upload and tweet both succeed. -/
def fixOutcome : TweetOutcome :=
  { uploadOk := true, tweetOk := true, id := "901", tweetErr := "" }

/-- Vision service absent (no API key configured). -/
def fixVisionOff : VisionEnv := { configured := false, response := none }

/-! ## Helper lemmas -/

theorem jsTruthyStr_eq_true (o : Option String) :
    jsTruthyStr o = true ↔ o ≠ none ∧ o ≠ some "" := by
  cases o with
  | none => simp [jsTruthyStr]
  | some s =>
    simp only [jsTruthyStr, ne_eq, decide_eq_true_eq]
    constructor
    · intro h; exact ⟨by simp, by simpa using h⟩
    · intro h; simpa using h.2

theorem setPostSent_setPostSent (l : List StatePost) (i : Nat) (tid turl t1 t2 : String) :
    setPostSent (setPostSent l i tid turl t1) i tid turl t2 = setPostSent l i tid turl t2 := by
  induction l generalizing i with
  | nil => simp [setPostSent]
  | cons p rest ih =>
    cases i with
    | zero => simp [setPostSent]
    | succ n => simp [setPostSent, ih]

theorem get?_mapIdxFrom (f : Nat → α → β) (l : List α) (n j : Nat) :
    (mapIdxFrom f n l).get? j = (l.get? j).map (fun a => f (n + j) a) := by
  induction l generalizing n j with
  | nil => simp [mapIdxFrom]
  | cons a as ih =>
    cases j with
    | zero => simp [mapIdxFrom]
    | succ m =>
      have harith : n + 1 + m = n + (m + 1) := by omega
      have step := ih (n + 1) m
      rw [harith] at step
      simpa [mapIdxFrom] using step

theorem mem_mapIdxFrom {f : Nat → α → β} {b : β} :
    ∀ {n : Nat} {l : List α}, b ∈ mapIdxFrom f n l → ∃ i a, l.get? i = some a ∧ b = f (n + i) a := by
  intro n l
  induction l generalizing n with
  | nil => simp [mapIdxFrom]
  | cons a as ih =>
    intro hb
    simp only [mapIdxFrom, List.mem_cons] at hb
    rcases hb with hb | hb
    · exact ⟨0, a, by simp, by simpa using hb⟩
    · obtain ⟨i, x, hget, hx⟩ := ih hb
      refine ⟨i + 1, x, by simpa using hget, ?_⟩
      have harith : n + 1 + i = n + (i + 1) := by omega
      rw [harith] at hx
      exact hx

theorem find?_slot (l : List StatePost) (n i : Nat) (name : String)
    (h : ∀ j q, l.get? j = some q → q.index = n + j) :
    l.find? (fun p => p.index = i ∧ p.character = name) =
      (if n ≤ i then
        (match l.get? (i - n) with
         | some q => if q.character = name then some q else none
         | none => none)
      else none) := by
  induction l generalizing n with
  | nil =>
    simp only [List.find?]
    split <;> rfl
  | cons p rest ih =>
    have hp : p.index = n := by simpa using h 0 p (by simp)
    have hrest : ∀ j q, rest.get? j = some q → q.index = (n + 1) + j := by
      intro j q hq
      have := h (j + 1) q (by simpa using hq)
      omega
    by_cases hni : n = i
    · subst hni
      by_cases hname : p.character = name
      · have hpred : (fun p : StatePost => decide (p.index = n ∧ p.character = name)) p = true := by
          simp [hp, hname]
        simp only [List.find?, hpred]
        simp [hname]
      · have hpred : (fun p : StatePost => decide (p.index = n ∧ p.character = name)) p = false := by
          simp [hname]
        simp only [List.find?, hpred]
        rw [ih (n + 1) hrest]
        have : ¬ (n + 1 ≤ n) := by omega
        simp [this, hname]
    · have hpred : (fun p : StatePost => decide (p.index = i ∧ p.character = name)) p = false := by
        simp [hp, hni]
      simp only [List.find?, hpred]
      rw [ih (n + 1) hrest]
      by_cases hle : n ≤ i
      · have hle1 : n + 1 ≤ i := by omega
        have hsub : i - n = (i - (n + 1)) + 1 := by omega
        simp only [hle, hle1, if_true, hsub, List.get?_cons_succ]
      · have hle1 : ¬ (n + 1 ≤ i) := by omega
        simp [hle, hle1]

theorem mem_setPostSent {q : StatePost} :
    ∀ (l : List StatePost) (i : Nat) (tid turl now : String),
      q ∈ setPostSent l i tid turl now →
      q ∈ l ∨ (q.status = "posted" ∧ q.postedAt = some now ∧
               q.tweetId = some tid ∧ q.tweetUrl = some turl) := by
  intro l
  induction l with
  | nil => intro i tid turl now h; simp [setPostSent] at h
  | cons p rest ih =>
    intro i tid turl now h
    cases i with
    | zero =>
      simp only [setPostSent, List.mem_cons] at h
      rcases h with h | h
      · right; rw [h]; exact ⟨rfl, rfl, rfl, rfl⟩
      · exact Or.inl (List.mem_cons_of_mem _ h)
    | succ n =>
      simp only [setPostSent, List.mem_cons] at h
      rcases h with h | h
      · exact Or.inl (by simp [h])
      · rcases ih n tid turl now h with h' | h'
        · exact Or.inl (List.mem_cons_of_mem _ h')
        · exact Or.inr h'

theorem mem_setPostFailed {q : StatePost} :
    ∀ (l : List StatePost) (i : Nat) (msg now : String),
      q ∈ setPostFailed l i msg now → q ∈ l ∨ q.status = "error" := by
  intro l
  induction l with
  | nil => intro i msg now h; simp [setPostFailed] at h
  | cons p rest ih =>
    intro i msg now h
    cases i with
    | zero =>
      simp only [setPostFailed, List.mem_cons] at h
      rcases h with h | h
      · right; rw [h]
      · exact Or.inl (List.mem_cons_of_mem _ h)
    | succ n =>
      simp only [setPostFailed, List.mem_cons] at h
      rcases h with h | h
      · exact Or.inl (by simp [h])
      · rcases ih n msg now h with h' | h'
        · exact Or.inl (List.mem_cons_of_mem _ h')
        · exact Or.inr h'

/-! ## Claim theorems -/

/-- C1: for every slot whose persisted status is `posted`, a publish
  attempt addressed to that slot (any caller passing the slot index —
  scheduled, triggered, or after a restart, since the state is re-read
  from the store on every attempt) consults the persisted state first and
  returns a skip result without making any call to the posting service,
  leaving the persisted state unchanged. -/
theorem postBirthdayTweet_skips_posted_slot
    (store : StoreRead) (st : DailyState) (i : Nat) (p : StatePost)
    (outcome : TweetOutcome) (now : String)
    (hload : loadState store = some st) (hget : st.posts.get? i = some p)
    (hstat : p.status = "posted") :
    postBirthdayTweet store (some i) outcome now =
      { result := { success := true, skipped := true, reason := some "already_posted" },
        calls := [], persisted := some st } := by
  have hget2 : st.posts[i]? = some p := by rw [← List.get?_eq_getElem?]; exact hget
  have hsent : isPostAlreadySent store i = true := by
    simp [isPostAlreadySent, hload, hget2, hstat]
  simp [postBirthdayTweet, hsent, hload]

/-- C1 witness: the guard theorem applied to a concrete store whose slot
  0 is posted. -/
theorem postBirthdayTweet_skips_posted_slot_witness :
    postBirthdayTweet (StoreRead.ok fixState) (some 0) fixOutcome "2025-06-01T15:00:00Z" =
      { result := { success := true, skipped := true, reason := some "already_posted" },
        calls := [], persisted := some fixState } :=
  postBirthdayTweet_skips_posted_slot (StoreRead.ok fixState) fixState 0 fixPosted
    fixOutcome "2025-06-01T15:00:00Z" rfl rfl rfl

/-- C4 counterexample: a second `markPostAsSent` on an already posted
  slot is *not* a no-op — invoked at a later timestamp it overwrites
  `postedAt`, so the stored record is no longer identical to its value
  after the first call. -/
theorem markPostAsSent_twice_changes_record :
    markPostAsSent (markPostAsSent (some fixStatePending) 1 "9002" "u2" "T1")
        1 "9002" "u2" "T2" ≠
      markPostAsSent (some fixStatePending) 1 "9002" "u2" "T1" := by decide

/-- C4 amended: calling `markPostAsSent` a second time raises no error
  (the operation is total), but its effect is last-write-wins: the
  composition of two calls on the same slot equals the second call alone,
  so the record is unchanged only when the second call carries the same
  ids and the same timestamp. -/
theorem markPostAsSent_last_write_wins (s : Option DailyState) (i : Nat)
    (tid turl t1 t2 : String) :
    markPostAsSent (markPostAsSent s i tid turl t1) i tid turl t2 =
      markPostAsSent s i tid turl t2 := by
  cases s with
  | none => rfl
  | some st => simp [markPostAsSent, setPostSent_setPostSent]

/-- C5 counterexample: with the state file unreadable (a read failure
  other than ENOENT), the idempotency guard reports "not posted" and a
  publish attempt proceeds to contact the posting service — it does not
  abort. -/
theorem publish_proceeds_on_unreadable_state :
    isPostAlreadySent StoreRead.readErr 0 = false ∧
    (postBirthdayTweet StoreRead.readErr (some 0) fixOutcome "T").calls =
      [SvcCall.uploadMedia, SvcCall.postTweet] ∧
    (postBirthdayTweet StoreRead.readErr (some 0) fixOutcome "T").result.success = true := by
  decide

/-- C5 amended: a state-store read failure other than the file not
  existing is swallowed, not fatal: `loadState` returns null exactly as
  for a missing file, `isPostAlreadySent` then reports false, and every
  publish attempt for a slot proceeds to call the posting service as if
  the slot were not yet posted. -/
theorem read_failure_swallowed (i : Nat) (outcome : TweetOutcome) (now : String) :
    loadState StoreRead.readErr = none ∧
    loadState StoreRead.readErr = loadState StoreRead.enoent ∧
    isPostAlreadySent StoreRead.readErr i = false ∧
    (postBirthdayTweet StoreRead.readErr (some i) outcome now).calls ≠ [] := by
  refine ⟨rfl, rfl, rfl, ?_⟩
  rcases outcome with ⟨u, t, tid, terr⟩
  cases u <;> cases t <;> simp [postBirthdayTweet, isPostAlreadySent, loadState]

/-- C6: with community candidates answered as `["b.jpg", "a.jpg"]` (all
  downloadable and valid) and no earlier provider producing a hit, the
  publish-path resolver `resolveImageForCharacter` sorts by URL and picks
  `a.jpg`, but the preparation path `prepareImageSelection` (index.js)
  uses the provider order unsorted and picks `b.jpg`: the two code paths
  do not select the same candidate for identical provider responses. -/
theorem image_selection_paths_diverge :
    sortByUrl ["b.jpg", "a.jpg"] = ["a.jpg", "b.jpg"] ∧
    resolveImageForCharacter c6Oracle c6Char none false = some ("a.jpg", "safebooru") ∧
    prepareImageSelection c6Oracle c6Char none = some ("b.jpg", "safebooru") := by decide

/-- C7: in the "Suguru Geto"/"Bleach" scenario (no roster match, a single
  unverified global-search hit whose own series list is Jujutsu Kaisen),
  the resolver returns that record with `about` cleared to null and its
  anime list reading Jujutsu Kaisen — but the prepared post's `series`
  field is taken from the raw guess and still reads "Bleach". -/
theorem geto_scenario_series_stays_guess :
    searchCharacter c7Oracle "Suguru Geto" (some "Bleach") =
      some { getoFull with about := none, genres := ["Action"] } ∧
    (searchCharacter c7Oracle "Suguru Geto" (some "Bleach")).map
        (fun fc => fc.anime.map (·.title)) = some [some "Jujutsu Kaisen"] ∧
    (mkPreparedPost c7Raw (searchCharacter c7Oracle "Suguru Geto" (some "Bleach"))
        "geto.jpg").character.about = none ∧
    (mkPreparedPost c7Raw (searchCharacter c7Oracle "Suguru Geto" (some "Bleach"))
        "geto.jpg").character.series = "Bleach" := by decide

/-- C10 counterexample: the two spellings do *not* normalize to one
  common string — `normalizeName` replaces the comma by a space without
  reordering, and the trailing `ou` of "Shuukurou" survives the
  adjacent-duplicate collapse. -/
theorem normalizeName_examples_differ :
    normalizeName "Tsukishima, Shuukurou" = "tsukishima shukurou" ∧
    normalizeName "Shukuro Tsukishima" = "shukuro tsukishima" ∧
    normalizeName "Tsukishima, Shuukurou" ≠ normalizeName "Shukuro Tsukishima" := by decide

/-- C10 amended: after the caller's "Family, Given" reorder
  (`malNameToFirstLast`), the two spellings still normalize to distinct
  strings ("shukurou tsukishima" vs "shukuro tsukishima"), but the
  matcher identifies them through the partial rule: the normalized query
  has two tokens and each occurs as a substring of the normalized
  candidate. -/
theorem normalizeName_tokens_bridge :
    malNameToFirstLast "Tsukishima, Shuukurou" = "Shuukurou Tsukishima" ∧
    normalizeName (malNameToFirstLast "Tsukishima, Shuukurou") = "shukurou tsukishima" ∧
    normalizeName (malNameToFirstLast "Tsukishima, Shuukurou") ≠
      normalizeName "Shukuro Tsukishima" ∧
    nameMatchTier (normalizeName "Shukuro Tsukishima")
      (normalizeName (malNameToFirstLast "Tsukishima, Shuukurou")) = 1 := by decide

/-- C3 counterexample: merging fresh data into a state whose slot 0 is
  `posted` for character "A" replaces that posted record with a fresh
  *pending* record when the fresh character at slot 0 is named "C" (the
  merge matches on index *and* name), and the non-posted slot 1 (status
  `error`, same character "B") keeps status `error` rather than being
  reset to `pending`. -/
theorem merge_overwrites_posted_on_name_change :
    (mergeState fixState [fixFreshC, fixFreshB] fixTimes).posts.map
        (fun p => (p.character, p.status)) = [("C", "pending"), ("B", "error")] ∧
    fixState.posts.map (fun p => (p.character, p.status)) =
      [("A", "posted"), ("B", "error")] := by decide

/-- C3 amended: in a well-formed state (index fields equal positions),
  the merge keeps slot `i` untouched iff the existing record there is
  `posted` *and* the freshly prepared character at `i` has the same name;
  a same-name non-posted record is overwritten with fresh data but keeps
  its previous status (`'error'` stays `'error'`, otherwise `'pending'`)
  and its timestamps/ids; with no same-name record the slot becomes a
  fresh pending record. -/
theorem mergeState_slot_behavior
    (st : DailyState) (fresh : List PreparedPost) (times : List TimeObj)
    (i : Nat) (p : PreparedPost)
    (hwf : slotIndexed st) (hp : fresh.get? i = some p) :
    (∀ q, st.posts.get? i = some q → q.character = p.character.name →
      q.status = "posted" →
      (mergeState st fresh times).posts.get? i = some q) ∧
    (∀ q, st.posts.get? i = some q → q.character = p.character.name →
      q.status ≠ "posted" →
      (mergeState st fresh times).posts.get? i = some
        { index := i, acdbId := p.acdbId <|> q.acdbId,
          character := p.character.name, series := p.character.series,
          scheduledTime := formatTime (times.get? i),
          status := jsOrStr q.status "pending",
          postedAt := jsTruthyOpt q.postedAt, tweetId := jsTruthyOpt q.tweetId,
          tweetUrl := jsTruthyOpt q.tweetUrl }) ∧
    ((∀ q, st.posts.get? i = some q → q.character ≠ p.character.name) →
      (mergeState st fresh times).posts.get? i = some (freshSlot times i p)) := by
  have hposts : (mergeState st fresh times).posts.get? i = some (mergeSlot st times i p) := by
    simp only [mergeState, mapWithIndex]
    rw [get?_mapIdxFrom, hp]
    simp
  have hwf0 : ∀ j q, st.posts.get? j = some q → q.index = 0 + j := by
    intro j q hq; simpa using hwf j q hq
  have hfind := find?_slot st.posts 0 i p.character.name hwf0
  simp only [Nat.zero_le, if_true, Nat.sub_zero] at hfind
  refine ⟨?_, ?_, ?_⟩
  · intro q hq hname hstat
    rw [hposts]
    rw [show mergeSlot st times i p = q from ?_]
    unfold mergeSlot
    rw [hfind, hq]
    simp [hname, hstat]
  · intro q hq hname hstat
    rw [hposts]
    congr 1
    unfold mergeSlot
    rw [hfind, hq]
    simp [hname, hstat]
  · intro hnone
    rw [hposts]
    congr 1
    unfold mergeSlot
    rw [hfind]
    cases hq : st.posts.get? i with
    | none => simp
    | some q => simp [hnone q hq]

/-- C3 witness: the amended merge behaviour applied to the concrete
  fixture at slot 1 (same-name `error` record: overwritten but keeping
  status `error`). -/
theorem mergeState_slot_behavior_witness :
    (mergeState fixState [fixFreshC, fixFreshB] fixTimes).posts.get? 1 = some
      { index := 1, acdbId := fixFreshB.acdbId <|> fixErrored.acdbId,
        character := fixFreshB.character.name, series := fixFreshB.character.series,
        scheduledTime := formatTime (fixTimes.get? 1),
        status := jsOrStr fixErrored.status "pending",
        postedAt := jsTruthyOpt fixErrored.postedAt,
        tweetId := jsTruthyOpt fixErrored.tweetId,
        tweetUrl := jsTruthyOpt fixErrored.tweetUrl } := by
  have hwf : slotIndexed fixState := by
    intro j q hq
    match j with
    | 0 =>
      rw [show fixState.posts.get? 0 = some fixPosted from rfl] at hq
      cases hq; rfl
    | 1 =>
      rw [show fixState.posts.get? 1 = some fixErrored from rfl] at hq
      cases hq; rfl
    | (n + 2) =>
      rw [show fixState.posts.get? (n + 2) = none from rfl] at hq
      cases hq
  exact (mergeState_slot_behavior fixState [fixFreshC, fixFreshB] fixTimes 1 fixFreshB
    hwf rfl).2.1 fixErrored rfl rfl (by decide)

/-- C2 counterexample: a record with status `posted` is not immutable —
  `markPostAsFailed` on its slot overwrites its status to `error`. -/
theorem posted_record_mutated_by_markFailed :
    (markPostAsFailed (some fixState) 0 "boom" "T9").map
        (fun st => st.posts.map (fun p => p.status)) = some ["error", "error"] ∧
    fixState.posts.map (fun p => p.status) = ["posted", "error"] := by decide

theorem mergeSlot_mem_of_posted (st : DailyState) (times : List TimeObj)
    (idx : Nat) (post : PreparedPost) :
    (mergeSlot st times idx post).status = "posted" →
    mergeSlot st times idx post ∈ st.posts := by
  unfold mergeSlot
  split
  case h_1 ep heq =>
    split
    case isTrue hps => intro _; exact List.mem_of_find?_eq_some heq
    case isFalse hps =>
      intro hstat
      exfalso
      have hstat' : jsOrStr ep.status "pending" = "posted" := hstat
      unfold jsOrStr at hstat'
      split at hstat'
      · exact absurd hstat' (by decide)
      · exact hps hstat'
  case h_2 heq =>
    intro hstat
    simp [freshSlot] at hstat

/-- C2 amended: every `posted` record carries a non-null `postedAt`,
  tweet id and tweet URL, and this invariant is preserved by every
  lifecycle operation — fresh initialization, the initializeDay merge,
  `markPostAsSent` and `markPostAsFailed`.  (Immutability of posted
  records, the dropped half of the claim, fails: see the
  counterexample.) -/
theorem posted_invariant_preserved :
    (∀ (posts : List PreparedPost) (times : List TimeObj) (d n : String),
      postedOk (initializeTodaysState none posts times d n)) ∧
    (∀ (st : DailyState) (posts : List PreparedPost) (times : List TimeObj) (d n : String),
      postedOk st → postedOk (initializeTodaysState (some st) posts times d n)) ∧
    (∀ (st st' : DailyState) (i : Nat) (tid turl now : String),
      postedOk st → markPostAsSent (some st) i tid turl now = some st' → postedOk st') ∧
    (∀ (st st' : DailyState) (i : Nat) (msg now : String),
      postedOk st → markPostAsFailed (some st) i msg now = some st' → postedOk st') := by
  refine ⟨?_, ?_, ?_, ?_⟩
  · intro posts times d n b hb hstat
    simp only [initializeTodaysState, mapWithIndex] at hb
    obtain ⟨j, a, hget, rfl⟩ := mem_mapIdxFrom hb
    simp [freshSlot] at hstat
  · intro st posts times d n hok b hb hstat
    simp only [initializeTodaysState, mergeState, mapWithIndex] at hb
    obtain ⟨j, a, hget, rfl⟩ := mem_mapIdxFrom hb
    exact hok _ (mergeSlot_mem_of_posted st times (0 + j) a hstat) hstat
  · intro st st' i tid turl now hok heq b hb hstat
    have hst' : st' = { st with posts := setPostSent st.posts i tid turl now } := by
      simpa [markPostAsSent] using heq.symm
    subst hst'
    rcases mem_setPostSent st.posts i tid turl now hb with hmem | hfields
    · exact hok b hmem hstat
    · exact ⟨by simp [hfields.2.1], by simp [hfields.2.2.1], by simp [hfields.2.2.2]⟩
  · intro st st' i msg now hok heq b hb hstat
    have hst' : st' = { st with posts := setPostFailed st.posts i msg now } := by
      simpa [markPostAsFailed] using heq.symm
    subst hst'
    rcases mem_setPostFailed st.posts i msg now hb with hmem | herr
    · exact hok b hmem hstat
    · rw [herr] at hstat; exact absurd hstat (by decide)

/-- C2 witness: the preservation theorem applied to a concrete
  `markPostAsSent` call on the pending slot of the fixture state. -/
theorem posted_invariant_preserved_witness :
    postedOk
      { fixStatePending with
        posts := setPostSent fixStatePending.posts 1 "9002" "u2" "T1" } := by
  have hok : postedOk fixStatePending := by
    intro p hp hstat
    fin_cases hp <;> revert hstat <;> decide
  exact posted_invariant_preserved.2.2.1 fixStatePending
    { fixStatePending with posts := setPostSent fixStatePending.posts 1 "9002" "u2" "T1" }
    1 "9002" "u2" "T1" hok rfl

/-- C8: `canRecoverFromState` is true exactly when a daily state exists,
  contains at least one post, and every post carries a (truthy) source
  character id; and concretely it is false when a single post lacks the
  id while the others have it. -/
theorem canRecoverFromState_iff :
    (∀ s : Option DailyState,
      canRecoverFromState s = true ↔
        ∃ st, s = some st ∧ st.posts ≠ [] ∧
          ∀ p ∈ st.posts, p.acdbId ≠ none ∧ p.acdbId ≠ some "") ∧
    canRecoverFromState (some fixMixedIds) = false := by
  constructor
  · intro s
    cases s with
    | none => simp [canRecoverFromState]
    | some st =>
      by_cases he : st.posts.isEmpty
      · have hnil : st.posts = [] := by simpa using he
        simp [canRecoverFromState, he, hnil]
      · have hne : st.posts ≠ [] := by simpa using he
        simp [canRecoverFromState, he, hne, List.all_eq_true, jsTruthyStr_eq_true]
  · decide

/-- C9: the validator's hard gates apply in order with short-circuit —
  any candidate under the 25 000-byte minimum is rejected with the
  byte-threshold reason no matter its dimensions or the Vision setup; a
  candidate passing the size gate but under 280 px in either dimension is
  rejected with the dimension reason; concretely a 10 000-byte 100×100
  file is rejected naming the byte threshold, and a 50 000-byte 400×400
  file passes when content recognition is unconfigured. -/
theorem validateImageFile_gate_order :
    (∀ (fp : String) (info : ImageFileInfo) (vision : VisionEnv) (cn sn : String)
      (size : Nat), fp ≠ "" → info.statResult = Except.ok (true, size) →
      size < MIN_FILE_SIZE_BYTES →
      validateImageFile (some fp) info vision cn sn =
        (false, some ("Imagen muy pequeña (" ++ toString size ++ " bytes, mínimo " ++
          toString MIN_FILE_SIZE_BYTES ++ ")"))) ∧
    (∀ (fp : String) (info : ImageFileInfo) (vision : VisionEnv) (cn sn : String)
      (size w h : Nat), fp ≠ "" → info.statResult = Except.ok (true, size) →
      ¬ size < MIN_FILE_SIZE_BYTES → info.dims = Except.ok (w, h) → w ≠ 0 → h ≠ 0 →
      (w < MIN_WIDTH ∨ h < MIN_HEIGHT) →
      validateImageFile (some fp) info vision cn sn =
        (false, some ("Imagen muy pequeña (" ++ toString w ++ "x" ++ toString h ++
          ", mínimo " ++ toString MIN_WIDTH ++ "x" ++ toString MIN_HEIGHT ++ ")"))) ∧
    validateImageFile (some "cand.jpg") ⟨Except.ok (true, 10000), Except.ok (100, 100)⟩
        fixVisionOff "Name" "Series" =
      (false, some "Imagen muy pequeña (10000 bytes, mínimo 25000)") ∧
    validateImageFile (some "cand.jpg") ⟨Except.ok (true, 50000), Except.ok (400, 400)⟩
        fixVisionOff "Name" "Series" = (true, none) := by
  refine ⟨?_, ?_, by decide, by decide⟩
  · intro fp info vision cn sn size hfp hstat hsize
    obtain ⟨sr, dims⟩ := info
    simp only at hstat
    subst hstat
    simp [validateImageFile, hfp, hsize]
  · intro fp info vision cn sn size w h hfp hstat hsize hdims hw hh hlt
    obtain ⟨sr, dims⟩ := info
    simp only at hstat hdims
    subst hstat
    subst hdims
    rcases hlt with hlt | hlt
    · simp [validateImageFile, hfp, hsize, hw, hh, hlt]
    · simp [validateImageFile, hfp, hsize, hw, hh, hlt]

/-- C9 witness: the size gate fires first on a concrete undersized file
  even though its dimensions are large. -/
theorem validateImageFile_gate_order_witness :
    validateImageFile (some "w.jpg") ⟨Except.ok (true, 12345), Except.ok (999, 999)⟩
        fixVisionOff "N" "S" =
      (false, some ("Imagen muy pequeña (" ++ toString 12345 ++ " bytes, mínimo " ++
        toString MIN_FILE_SIZE_BYTES ++ ")")) :=
  validateImageFile_gate_order.1 "w.jpg" ⟨Except.ok (true, 12345), Except.ok (999, 999)⟩
    fixVisionOff "N" "S" 12345 (by decide) rfl (by decide)
